import Mathlib

/-!
Verification of the layered-view layout and annotation engine.

A shallow embedding of `visualkeras/layered.py` (`layered_view`): shape
resolution, box layout, vertical/horizontal centering, grouped and per-box
shape-label annotation, and legend color swatches.  Numeric values are
modelled by `ℚ` (the Python code computes with exact ints and floats whose
operations here — sums, products, divisions by 2 and 3, min/max, ceil — are
exact in rational arithmetic).  Failures (Python `raise`) are modelled by
`Except Err`.
-/

/-- Errors raised by `layered_view`, one constructor per raise site:
`badDrawShapes` = line 51 (`ValueError` for `draw_shapes` outside 0..3);
`badOrientation` = line 120 (`ValueError` for an unsupported
`one_dim_orientation`); `badShape` = lines 102/122 (`RuntimeError` for an
unsupported tensor shape container or rank); `structural` = lines 245/269
(`RuntimeError` "Two spacing layers in a row not allowed");
`noneDim` = Python `TypeError` from `None * scale`;
`indexError` = Python `IndexError` from list indexing;
`typeError` = the Python `TypeError` raised at line 111 by `max(z)` —
the builtin `max` applied to the single non-iterable int `z`. -/
inductive Err where
  | badDrawShapes
  | badOrientation
  | badShape
  | structural
  | noneDim
  | indexError
  | typeError
  deriving Repr, DecidableEq

/-- A layer's `output_shape` as inspected at lines 96-102: either a plain
tuple of dimensions (entries may be `None`, modelled by `Option`), a list
holding exactly one such tuple ("drop dimension for non seq. models"), or
some other unsupported container. -/
inductive TensorShape where
  | tup (dims : List (Option Nat))
  | singleList (dims : List (Option Nat))
  | unsupported
  deriving Repr, DecidableEq

/-- The type tag of `SpacingDummyLayer`.  `type(layer) == SpacingDummyLayer`
becomes an equality test on `typeId`. -/
def spacingTypeId : Nat := 0

/-- A layer of the model: its runtime type tag (used for ignore checks,
coloring and the legend), the `spacing` attribute (only meaningful when the
type is `SpacingDummyLayer`; its value is modelled from the spec, which says
a spacer "advances the horizontal cursor by its configured spacing amount"),
and its `output_shape`. -/
structure Layer where
  typeId : Nat
  spacing : ℚ := 50
  shape : TensorShape := .tup []
  deriving Repr, DecidableEq

/-- A caller-supplied `color_map` entry: a Python dict that may define
`fill` and/or `outline`. -/
structure CEntry where
  fill : Option String := none
  outline : Option String := none
  deriving Repr, DecidableEq

/-- The keyword parameters of `layered_view` (lines 8-16) that the layout,
annotation and legend logic reads.  Defaults follow the signature.  The
purely graphical parameters (`background_fill`, `draw_reversed`,
`draw_funnel`, fonts, `font_color`, `to_file`) only affect pixel output and
are not part of the embedding. -/
structure Params where
  min_z : ℚ := 20
  min_xy : ℚ := 20
  max_z : ℚ := 400
  max_xy : ℚ := 2000
  scale_z : ℚ := 1/10
  scale_xy : ℚ := 4
  type_ignore : List Nat := []
  index_ignore : List Nat := []
  color_map : List (Nat × CEntry) := []
  one_dim_orientation : String := "z"
  draw_volume : Bool := true
  draw_shapes : Int := 0
  padding : Int := 10
  padding_left : Int := 0
  padding_vertical : Int := 10
  spacing : Int := 10
  shade_step : ℚ := 10
  legend : Bool := false

instance {α β : Type} [DecidableEq α] [DecidableEq β] : DecidableEq (Except α β) :=
  fun a b =>
    match a, b with
    | .ok x, .ok y => if h : x = y then .isTrue (by simp [h]) else .isFalse (by simp [h])
    | .error x, .error y => if h : x = y then .isTrue (by simp [h]) else .isFalse (by simp [h])
    | .ok _, .error _ => .isFalse (by simp)
    | .error _, .ok _ => .isFalse (by simp)

/-- Python's binary `min` (value-wise; on `ℚ` this agrees with `min`). -/
def pymin (a b : ℚ) : ℚ := if b < a then b else a

/-- Python's binary `max` (value-wise; on `ℚ` this agrees with `max`). -/
def pymax (a b : ℚ) : ℚ := if a < b then b else a

/-- `min(max(v, lo), hi)` as used on lines 105-118. -/
def clampDim (v lo hi : ℚ) : ℚ := pymin (pymax v lo) hi

/-- `shape[i]`: a `None` entry fed into arithmetic would raise `TypeError`;
a missing index would raise `IndexError`. -/
def dimAt (dims : List (Option Nat)) (i : Nat) : Except Err ℚ :=
  match dims.get? i with
  | some (some n) => .ok (n : ℚ)
  | some none => .error .noneDim
  | none => .error .indexError

/-- Modelled from the spec: `self_multiply` (from `utils`, not in src) used
at line 107 computes `product(dims[3:])` — the product of the remaining
dimensions. -/
def selfMultiply (dims : List (Option Nat)) : ℚ :=
  ((dims.filterMap id).foldl (· * ·) 1 : Nat)

/-- Lines 96-102: accept a tuple shape or a singleton list of one tuple,
reject anything else. -/
def getShapeDims (s : TensorShape) : Except Err (List (Option Nat)) :=
  match s with
  | .tup dims => .ok dims
  | .singleList dims => .ok dims
  | .unsupported => .error .badShape

/-- Lines 92-122: resolve a layer's dimension tuple into the box size
`(x, y, z)`.  `x = y = min_xy`, `z = min_z` to start; then the branch on the
shape's length: rank ≥ 4 scales dims 1, 2 and the product of the rest;
rank 3 scales dims 1 and 2 (line 109-110, so a `None` dim still raises
first) and then line 111 evaluates `min(max(z), max_z)` — the builtin
`max` applied to the single int `z` is not iteration over an iterable and
raises `TypeError`, so this branch always aborts;
rank 2 scales dim 1 into the axis chosen by `one_dim_orientation`, any
other orientation string raising `ValueError`; anything shorter raises
`RuntimeError`. -/
def resolveShapeXYZ (p : Params) (dims : List (Option Nat)) :
    Except Err (ℚ × ℚ × ℚ) :=
  if 4 ≤ dims.length then
    match dimAt dims 1, dimAt dims 2 with
    | .ok d1, .ok d2 =>
        .ok (clampDim (d1 * p.scale_xy) p.min_xy p.max_xy,
             clampDim (d2 * p.scale_xy) p.min_xy p.max_xy,
             clampDim (selfMultiply (dims.drop 3) * p.scale_z) p.min_z p.max_z)
    | .error e, _ => .error e
    | _, .error e => .error e
  else if dims.length == 3 then
    match dimAt dims 1, dimAt dims 2 with
    | .ok _, .ok _ => .error .typeError
    | .error e, _ => .error e
    | _, .error e => .error e
  else if dims.length == 2 then
    if p.one_dim_orientation == "x" then
      match dimAt dims 1 with
      | .ok d1 => .ok (clampDim (d1 * p.scale_xy) p.min_xy p.max_xy, p.min_xy, p.min_z)
      | .error e => .error e
    else if p.one_dim_orientation == "y" then
      match dimAt dims 1 with
      | .ok d1 => .ok (p.min_xy, clampDim (d1 * p.scale_xy) p.min_xy p.max_xy, p.min_z)
      | .error e => .error e
    else if p.one_dim_orientation == "z" then
      match dimAt dims 1 with
      | .ok d1 => .ok (p.min_xy, p.min_xy, clampDim (d1 * p.scale_z) p.min_z p.max_z)
      | .error e => .error e
    else .error .badOrientation
  else .error .badShape

/-- A positioned box (the `Box` entity from `utils`, as populated by
`layered_view` lines 124-146): projected top-left `(x1, y1)`, bottom-right
`(x2, y2)`, depth extent `de`, fill and outline colors and shade step. -/
structure Box where
  x1 : ℚ := 0
  y1 : ℚ := 0
  x2 : ℚ := 0
  y2 : ℚ := 0
  de : ℚ := 0
  fill : String := ""
  outline : String := ""
  shade : ℚ := 0
  deriving Repr, DecidableEq

/-- The mutable locals of the layout loop (lines 55-64): produced boxes,
the parallel `layer_y` footprint-height list, the (mutated, caller-owned)
color map, the horizontal cursor `current_z`, the `x_off` sentinel
(initialized to `-1`), the first-appearance list of layer types, and the
running `img_height` / `max_right` bounds. -/
structure LayoutState where
  boxes : List Box := []
  layer_y : List ℚ := []
  colorMap : List (Nat × CEntry) := []
  current_z : ℚ := 0
  x_off : ℚ := -1
  layer_types : List Nat := []
  img_height : ℚ := 0
  max_right : ℚ := 0
  deriving Repr, DecidableEq

/-- The initial layout state (lines 55-64): `current_z = padding +
padding_left`, `x_off = -1`, the color map seeded by the caller. -/
def initLayoutState (p : Params) : LayoutState :=
  { colorMap := p.color_map, current_z := (p.padding : ℚ) + (p.padding_left : ℚ) }

/-- Line 78: `type(layer) in type_ignore or index in index_ignore`. -/
def isIgnored (p : Params) (idx : Nat) (l : Layer) : Bool :=
  p.type_ignore.contains l.typeId || p.index_ignore.contains idx

/-- Line 82: `type(layer) == SpacingDummyLayer`. -/
def isSpacerL (l : Layer) : Bool :=
  l.typeId == spacingTypeId

/-- Lines 241/308: `type(layer) in type_ignore or type(layer) ==
SpacingDummyLayer or index in index_ignore` — the annotator's delimiter
test, the union of the layout loop's two skip conditions. -/
def isDelim (p : Params) (idx : Nat) (l : Layer) : Bool :=
  p.type_ignore.contains l.typeId || isSpacerL l || p.index_ignore.contains idx

/-- `dict.get(layer_type, {}).get('fill', …)` on the color map, whose
assignments are modelled by consing (the newest binding wins on lookup,
like a Python dict write). -/
def cmGetFill (cm : List (Nat × CEntry)) (t : Nat) : Option String :=
  match cm.lookup t with
  | some e => e.fill
  | none => none

/-- `dict.get(layer_type, {}).get('outline', …)` on the color map. -/
def cmGetOutline (cm : List (Nat × CEntry)) (t : Nat) : Option String :=
  match cm.lookup t with
  | some e => e.outline
  | none => none

/-- One iteration of the layout loop (lines 75-157) for the layer at model
index `idx`.  Ignored layers are skipped; a `SpacingDummyLayer` advances
`current_z` by its `spacing` attribute; a visible layer records its type,
resolves its shape to `(x, y, z)`, builds the box at the cursor, resolves
its colors (the `wheel` function models `ColorWheel.get_color` from
`utils`, not in src — modelled from the spec: it assigns a color per layer
type, reused consistently), writes both colors back into the color map,
appends the box and its footprint height, updates the running bounds and
advances the cursor by `z + spacing`. -/
def layoutStep (p : Params) (wheel : Nat → String) (idx : Nat)
    (s : LayoutState) (l : Layer) : Except Err LayoutState :=
  if isIgnored p idx l then .ok s
  else if isSpacerL l then .ok { s with current_z := s.current_z + l.spacing }
  else
    let layer_types :=
      if s.layer_types.contains l.typeId then s.layer_types
      else s.layer_types ++ [l.typeId]
    match getShapeDims l.shape with
    | .error e => .error e
    | .ok dims =>
      match resolveShapeXYZ p dims with
      | .error e => .error e
      | .ok (x, y, z) =>
        let de := if p.draw_volume then x / 3 else 0
        let x_off := if s.x_off == -1 then de / 2 else s.x_off
        let x1 := s.current_z - de / 2
        let y1 := de
        let x2 := x1 + z
        let y2 := y1 + y
        let fill := (cmGetFill s.colorMap l.typeId).getD (wheel l.typeId)
        let outline := (cmGetOutline s.colorMap l.typeId).getD "black"
        let colorMap := (l.typeId, ⟨some fill, some outline⟩) :: s.colorMap
        let hh := y2 - (y1 - de)
        .ok { boxes := s.boxes ++ [{ x1, y1, x2, y2, de, fill, outline, shade := p.shade_step }],
              layer_y := s.layer_y ++ [hh],
              colorMap, current_z := s.current_z + z + (p.spacing : ℚ),
              x_off, layer_types,
              img_height := if hh > s.img_height then hh else s.img_height,
              max_right := if x2 + de > s.max_right then x2 + de else s.max_right }

/-- The layout loop folded over the enumerated layer list. -/
def layoutFold (p : Params) (wheel : Nat → String) :
    Nat → LayoutState → List Layer → Except Err LayoutState
  | _, s, [] => .ok s
  | idx, s, l :: ls =>
    match layoutStep p wheel idx s l with
    | .error e => .error e
    | .ok s1 => layoutFold p wheel (idx + 1) s1 ls

/-- The centering pass (lines 166-173): each box is shifted vertically by
`(img.height - layer_y[i]) / 2` and horizontally by `x_off`. -/
def centerBoxes (imgHeight : Int) (x_off : ℚ) (bl : List (Box × ℚ)) : List Box :=
  bl.map fun b =>
    let y_off := ((imgHeight : ℚ) - b.2) / 2
    { b.1 with y1 := b.1.y1 + y_off, y2 := b.1.y2 + y_off,
               x1 := b.1.x1 + x_off, x2 := b.1.x2 + x_off }

/-- Lines 286-289 / 321-324: build the list of displayed dimensions from
`layer.output_shape`, dropping `None` entries.  For a plain tuple whose
filtered list is empty, Python raises `IndexError` at `output_shape[0]`;
for the singleton-list container, element 0 is the inner tuple itself (not
`None`), which is then unpacked and filtered.  An `unsupported` container
never reaches this code: the layout pass has already aborted the run. -/
def labelDims (s : TensorShape) : Except Err (List Nat) :=
  match s with
  | .tup dims =>
    match dims.filterMap id with
    | [] => .error .indexError
    | ds => .ok ds
  | .singleList dims => .ok (dims.filterMap id)
  | .unsupported => .error .badShape

/-- Lines 290-296: join the dimensions with `x`, inserting a line break
before the last dimension. -/
def formatShapeTxt (ds : List Nat) : String :=
  (List.range ds.length).foldl
    (fun acc ii =>
      let acc := acc ++ toString (ds.getD ii 0)
      let acc := if ii + 2 < ds.length then acc ++ "x" else acc
      if ii + 2 == ds.length then acc ++ "\n" else acc)
    ""

/-- Python list indexing `boxes[i]`.  All indices reached in this code are
nonnegative (negative-index wraparound is never exercised), so a negative
or too-large index is mapped to `IndexError`. -/
def boxAt (boxes : List Box) (i : Int) : Except Err Box :=
  if 0 ≤ i then
    match boxes.get? i.toNat with
    | some b => .ok b
    | none => .error .indexError
  else .error .indexError

/-- Python `ceil(n / 2)` for an integer `n` (true division, then `ceil`). -/
def ceilHalf (n : Int) : Int := Int.fdiv (n + 1) 2

/-- One rendered shape label: the index (into the box list) of the box the
text is anchored to, the model index of the layer whose `output_shape`
supplied the text, the formatted text, and the text anchor point. -/
structure LabelInfo where
  anchorIdx : Int
  textLayerIdx : Nat
  text : String
  textX : ℚ
  textY : ℚ
  deriving Repr, DecidableEq

/-- The mutable locals of the annotation loops: the visible-box counter `i`
(starts at `-1`), `spacing_layer_index` (starts at `-1`), and the labels
drawn so far. -/
structure AnnState where
  i : Int := -1
  sli : Int := -1
  labels : List LabelInfo := []
  deriving Repr, DecidableEq

/-- Lines 241-263 of the grouped-label loop: a delimiter layer closes the
current segment — with `idx1 = spacing_layer_index` and `idx2 = i`, an
empty segment (`idx2 - idx1 <= 0`) raises; otherwise the anchor index is
`idx1 + ceil((idx2-idx1)/2)` for an odd segment length and
`idx1 + (idx2-idx1) // 2` for an even one (whose `text_x` is shifted by
`spacing`), and `spacing_layer_index` moves to `i`.  A visible layer just
advances `i`.  The returned option is the pending label anchor
(`draw_text`), holding anchor index, `text_x` and `text_y`. -/
def annot3Delim (p : Params) (boxes : List Box) (idx : Nat) (l : Layer)
    (s : AnnState) : Except Err (AnnState × Option (Int × ℚ × ℚ)) :=
  if isDelim p idx l then
    let idx1 := s.sli
    let idx2 := s.i
    if idx2 - idx1 ≤ 0 then .error .structural
    else
      let anchor : Int :=
        if (idx2 - idx1).fmod 2 == 1 then idx1 + ceilHalf (idx2 - idx1)
        else idx1 + (idx2 - idx1).fdiv 2
      match boxAt boxes anchor with
      | .error e => .error e
      | .ok box =>
        let tx := box.x1 + (box.x2 - box.x1) / 2 +
          (if (idx2 - idx1).fmod 2 == 1 then 0 else (p.spacing : ℚ))
        .ok ({ s with sli := s.i }, some (anchor, tx, box.y2 + 20))
  else .ok ({ s with i := s.i + 1 }, none)

/-- Lines 265-281 of the grouped-label loop: when `idx` is the last model
index, the emptiness check runs again, the parity test is
`idx2 - idx1 % 2 == 1` (binding as `idx2 - (idx1 % 2)`, as in the source),
a midpoint index is computed into a variable the source never uses, and
the pending label is anchored at `boxes[i]` (the even branch shifts
`text_x` by `padding`). -/
def annot3End (p : Params) (boxes : List Box) (lastIdx : Nat) (idx : Nat)
    (s1 : AnnState) (pend1 : Option (Int × ℚ × ℚ)) :
    Except Err (AnnState × Option (Int × ℚ × ℚ)) :=
  if idx == lastIdx then
    let idx1 := s1.sli
    let idx2 := s1.i
    if idx2 - idx1 ≤ 0 then .error .structural
    else
      -- the source computes this midpoint index but then anchors at
      -- `boxes[i]`, never reading it
      let _idxUnused : Int :=
        if idx2 - idx1.fmod 2 == 1 then idx1 + ceilHalf (idx2 - idx1)
        else idx1 + (idx2 - idx1).fdiv 2
      match boxAt boxes s1.i with
      | .error e => .error e
      | .ok box =>
        let tx := box.x1 + (box.x2 - box.x1) / 2 +
          (if idx2 - idx1.fmod 2 == 1 then 0 else (p.padding : ℚ))
        .ok (s1, some (s1.i, tx, box.y2 + 20))
  else .ok (s1, pend1)

/-- Lines 283-299 of the grouped-label loop: if a label is pending
(`draw_text`), format the current layer's `output_shape` and append the
label. -/
def annot3Emit (idx : Nat) (l : Layer) (s2 : AnnState)
    (pend : Option (Int × ℚ × ℚ)) : Except Err AnnState :=
  match pend with
  | none => .ok s2
  | some (anchor, tx, ty) =>
    match labelDims l.shape with
    | .error e => .error e
    | .ok ds =>
      .ok { s2 with labels :=
              s2.labels ++ [⟨anchor, idx, formatShapeTxt ds, tx, ty⟩] }

/-- One iteration of the grouped-label loop (`draw_shapes == 3`,
lines 238-299) for the layer at model index `idx`: the delimiter/advance
branch, then the end-of-sequence branch, then the pending label draw. -/
def annot3Step (p : Params) (boxes : List Box) (lastIdx : Nat) (idx : Nat)
    (l : Layer) (s : AnnState) : Except Err AnnState :=
  match annot3Delim p boxes idx l s with
  | .error e => .error e
  | .ok (s1, pend1) =>
    match annot3End p boxes lastIdx idx s1 pend1 with
    | .error e => .error e
    | .ok (s2, pend) => annot3Emit idx l s2 pend

/-- The grouped-label loop folded over the enumerated layer list. -/
def annot3Fold (p : Params) (boxes : List Box) (lastIdx : Nat) :
    Nat → AnnState → List Layer → Except Err AnnState
  | _, s, [] => .ok s
  | idx, s, l :: ls =>
    match annot3Step p boxes lastIdx idx l s with
    | .error e => .error e
    | .ok s1 => annot3Fold p boxes lastIdx (idx + 1) s1 ls

/-- One iteration of the per-box label loop (`draw_shapes == 1` or `2`,
lines 301-333): delimiters are skipped, each visible layer advances `i`
and draws its own shape text below `boxes[i]` — or above it when
`draw_shapes == 2` and `i` is odd. -/
def annot12Step (p : Params) (boxes : List Box) (idx : Nat) (l : Layer)
    (s : AnnState) : Except Err AnnState :=
  if isDelim p idx l then .ok s
  else
    let i := s.i + 1
    match boxAt boxes i with
    | .error e => .error e
    | .ok box =>
      let txy :=
        if p.draw_shapes == 2 && i.fmod 2 == 1 then
          (box.x1 - box.de + (box.x2 - box.x1) / 2, box.y1 - box.de - 20)
        else (box.x1 + (box.x2 - box.x1) / 2, box.y2 + 20)
      match labelDims l.shape with
      | .error e => .error e
      | .ok ds =>
        .ok { s with
              i := i,
              labels := s.labels ++ [⟨i, idx, formatShapeTxt ds, txy.1, txy.2⟩] }

/-- The per-box label loop folded over the enumerated layer list. -/
def annot12Fold (p : Params) (boxes : List Box) :
    Nat → AnnState → List Layer → Except Err AnnState
  | _, s, [] => .ok s
  | idx, s, l :: ls =>
    match annot12Step p boxes idx l s with
    | .error e => .error e
    | .ok s1 => annot12Fold p boxes (idx + 1) s1 ls

/-- Lines 349-368 (legend): one swatch per recorded layer type, in
first-appearance order, with fill and outline looked up in the color map
(falling back to `"#000000"`).  The patch geometry and text depend on font
metrics (external) and are not part of the embedding. -/
def legendSwatches (cm : List (Nat × CEntry)) (layer_types : List Nat) :
    List (Nat × String × String) :=
  layer_types.map fun t =>
    (t, (cmGetFill cm t).getD "#000000", (cmGetOutline cm t).getD "#000000")

/-- The produced image, as far as the embedding models it: canvas size,
the centered boxes, the shape labels and the legend swatches. -/
structure Render where
  width : Int
  height : Int
  boxes : List Box
  labels : List LabelInfo
  legend : List (Nat × String × String)
  deriving Repr, DecidableEq

/-- The `draw_shapes` dispatch (lines 232, 301): the grouped-label pass for
mode 3, the per-box pass for modes 1 and 2, nothing for mode 0. -/
def annotDispatch (p : Params) (boxes : List Box) (model : List Layer) :
    Except Err (List LabelInfo) :=
  if p.draw_shapes == 3 then
    match annot3Fold p boxes (model.length - 1) 0 {} model with
    | .error e => .error e
    | .ok a => .ok a.labels
  else if p.draw_shapes == 1 || p.draw_shapes == 2 then
    match annot12Fold p boxes 0 {} model with
    | .error e => .error e
    | .ok a => .ok a.labels
  else .ok []

/-- `layered_view` (lines 50-387, minus the pixel-drawing passes): validate
`draw_shapes`, run the layout loop, compute the canvas size
(`int(ceil(max_right + x_off + padding))` by
`int(ceil(img_height + padding_vertical))`), center the boxes, run the
annotation pass selected by `draw_shapes`, and build the legend swatches
when requested. -/
def layeredView (p : Params) (wheel : Nat → String) (model : List Layer) :
    Except Err Render :=
  if p.draw_shapes < 0 || 3 < p.draw_shapes then .error .badDrawShapes
  else
    match layoutFold p wheel 0 (initLayoutState p) model with
    | .error e => .error e
    | .ok s =>
      match annotDispatch p
          (centerBoxes ((s.img_height + (p.padding_vertical : ℚ)).ceil) s.x_off
            (s.boxes.zip s.layer_y)) model with
      | .error e => .error e
      | .ok labels =>
        .ok { width := (s.max_right + s.x_off + (p.padding : ℚ)).ceil,
              height := (s.img_height + (p.padding_vertical : ℚ)).ceil,
              boxes := centerBoxes ((s.img_height + (p.padding_vertical : ℚ)).ceil)
                         s.x_off (s.boxes.zip s.layer_y),
              labels := labels,
              legend := if p.legend then legendSwatches s.colorMap s.layer_types
                        else [] }

/-- The number of visible (neither ignored nor spacer) layers from model
index `idx` on. -/
def countVisible (p : Params) : Nat → List Layer → Nat
  | _, [] => 0
  | idx, l :: ls => (if isDelim p idx l then 0 else 1) + countVisible p (idx + 1) ls

/-- The type tags of the visible layers, in traversal order. -/
def visibleTypes (p : Params) : Nat → List Layer → List Nat
  | _, [] => []
  | idx, l :: ls =>
    if isDelim p idx l then visibleTypes p (idx + 1) ls
    else l.typeId :: visibleTypes p (idx + 1) ls

theorem pymin_eq_min (a b : ℚ) : pymin a b = min a b := by
  unfold pymin
  rw [min_def]
  rcases lt_trichotomy b a with h | h | h
  · rw [if_pos h, if_neg (not_le.2 h)]
  · subst h; simp
  · rw [if_neg (not_lt.2 h.le), if_pos h.le]

theorem pymax_eq_max (a b : ℚ) : pymax a b = max a b := by
  unfold pymax
  rw [max_def]
  rcases lt_trichotomy a b with h | h | h
  · rw [if_pos h, if_pos h.le]
  · subst h; simp
  · rw [if_neg (not_lt.2 h.le), if_neg (not_le.2 h)]

/-- The claim's grouped-label anchor rule, stated from its words: within a
segment of boxes at positions `start, …, start+len-1`, the label anchors at
the floor-midpoint when `len` is even and the ceil-midpoint when `len` is
odd — both equal to `start + (len-1)/2` in natural division. -/
def claimSegmentAnchor (start len : Nat) : Nat := start + (len - 1) / 2

theorem pymin_left {a b : ℚ} (h : a ≤ b) : pymin a b = a := by
  unfold pymin
  rw [if_neg (not_lt.2 h)]

theorem pymax_right {a b : ℚ} (h : a ≤ b) : pymax a b = b := by
  unfold pymax
  rcases lt_or_eq_of_le h with h1 | h1
  · rw [if_pos h1]
  · subst h1; simp

theorem clampDim_min {v lo hi : ℚ} (hv : v ≤ lo) (hlo : lo ≤ hi) :
    clampDim v lo hi = lo := by
  unfold clampDim
  rw [pymax_right hv, pymin_left hlo]

/-- **C3** (amended): in the rank-2 rule, the axis selected by
`one_dim_orientation` is set to `clamp(dim1 * scale, min, max)` while the
other two resolved dimensions always remain exactly at their configured
minimums; hence at most (not exactly) one resolved dimension can differ
from its minimum, it is selected solely by the orientation, and any
orientation value outside {x, y, z} raises the configuration error. -/
theorem rank2_orientation_rule (p : Params) (b : Option Nat) (d1 : Nat) :
    (p.one_dim_orientation = "x" →
      resolveShapeXYZ p [b, some d1] =
        .ok (clampDim ((d1 : ℚ) * p.scale_xy) p.min_xy p.max_xy, p.min_xy, p.min_z)) ∧
    (p.one_dim_orientation = "y" →
      resolveShapeXYZ p [b, some d1] =
        .ok (p.min_xy, clampDim ((d1 : ℚ) * p.scale_xy) p.min_xy p.max_xy, p.min_z)) ∧
    (p.one_dim_orientation = "z" →
      resolveShapeXYZ p [b, some d1] =
        .ok (p.min_xy, p.min_xy, clampDim ((d1 : ℚ) * p.scale_z) p.min_z p.max_z)) ∧
    (p.one_dim_orientation ≠ "x" → p.one_dim_orientation ≠ "y" →
      p.one_dim_orientation ≠ "z" →
      resolveShapeXYZ p [b, some d1] = .error .badOrientation) := by
  refine ⟨fun h => ?_, fun h => ?_, fun h => ?_, fun hx hy hz => ?_⟩ <;>
    simp [resolveShapeXYZ, dimAt, *]

/-- **C3** (counterexample to the claim as stated): with the default
configuration (orientation `z`, `scale_z = 0.1`, `min_z = 20`) a rank-2
shape with `dim1 = 100` resolves to `(20, 20, 20)` — every resolved
dimension equals its configured minimum (`100 * 0.1 = 10` is floored to
`min_z`), so the number of dimensions differing from their minimums is
zero, not exactly one. -/
theorem rank2_exactly_one_cex :
    resolveShapeXYZ {} [none, some 100] = .ok (20, 20, 20) ∧
    (20 : ℚ) = ({} : Params).min_xy ∧ (20 : ℚ) = ({} : Params).min_z :=
  ⟨by with_unfolding_all rfl, rfl, rfl⟩

/-- Witness for `rank2_orientation_rule` at orientation `x`, `dim1 = 300`. -/
theorem rank2_orientation_rule_witness :
    resolveShapeXYZ { one_dim_orientation := "x" } [none, some 300] =
      .ok (clampDim ((300 : ℚ) * 4) 20 2000, 20, 20) :=
  (rank2_orientation_rule { one_dim_orientation := "x" } none 300).1 rfl

/-- The resolved depth the claim (and the spec's rank-3 rule) asserts:
exactly `min_z`, never derived from any shape dimension. -/
def claimRank3Z (p : Params) : ℚ := p.min_z

/-- Helper: with dims 1 and 2 present, the rank-3 branch always aborts with
the `TypeError` of line 111 (`max` of the single int `z`). -/
theorem rank3_always_typeError (p : Params) (b : Option Nat) (d1 d2 : Nat) :
    resolveShapeXYZ p [b, some d1, some d2] = .error .typeError := by
  simp [resolveShapeXYZ, dimAt]

/-- **C4** (divergence from the claim): the rank-3 branch never resolves a
depth at all.  Line 111 is `z = min(max(z), max_z)`, and Python's builtin
`max` applied to the single (non-iterable) int `z` raises `TypeError`, so
every run that reaches this branch aborts: at the default configuration the
shape `(None, 28, 28)` yields the `typeError` outcome instead of a box with
the claimed depth `claimRank3Z {} = min_z = 20`, and likewise at
`min_z = 7` (claimed depth 7). -/
theorem rank3_typeerror_defect :
    resolveShapeXYZ {} [none, some 28, some 28] = .error .typeError ∧
    claimRank3Z {} = 20 ∧
    resolveShapeXYZ { min_z := 7 } [some 1, some 8, some 8] = .error .typeError ∧
    claimRank3Z { min_z := 7 } = 7 :=
  ⟨by with_unfolding_all rfl, rfl, by with_unfolding_all rfl, rfl⟩


theorem ratCeil_intCast (n : ℤ) : ((n : ℚ)).ceil = n := by
  unfold Rat.ceil
  simp

theorem delim_of_skip {p : Params} {idx : Nat} {l : Layer}
    (h : isIgnored p idx l = true ∨ isSpacerL l = true) : isDelim p idx l = true := by
  simp only [isIgnored, isDelim, Bool.or_eq_true] at *
  tauto

theorem layoutFold_skips (p : Params) (w : Nat → String) :
    ∀ (ls : List Layer) (idx : Nat) (s : LayoutState),
      (∀ k l, ls.get? k = some l → isIgnored p (idx + k) l = true ∨ isSpacerL l = true) →
      ∃ cz, layoutFold p w idx s ls = .ok { s with current_z := cz } := by
  intro ls
  induction ls with
  | nil =>
    intro idx s _
    exact ⟨s.current_z, rfl⟩
  | cons l ls ih =>
    intro idx s h
    have h0 := h 0 l rfl
    rw [Nat.add_zero] at h0
    have hrest : ∀ k l2, ls.get? k = some l2 →
        isIgnored p ((idx + 1) + k) l2 = true ∨ isSpacerL l2 = true := by
      intro k l2 hk
      have h2 := h (k + 1) l2 (by simpa using hk)
      rwa [show idx + (k + 1) = (idx + 1) + k by omega] at h2
    rcases h0 with hig | hsp
    · rcases ih (idx + 1) s hrest with ⟨cz, hcz⟩
      refine ⟨cz, ?_⟩
      simp [layoutFold, layoutStep, hig, hcz]
    · by_cases hig : isIgnored p idx l
      · rcases ih (idx + 1) s hrest with ⟨cz, hcz⟩
        refine ⟨cz, ?_⟩
        simp [layoutFold, layoutStep, hig, hcz]
      · rcases ih (idx + 1) { s with current_z := s.current_z + l.spacing } hrest with ⟨cz, hcz⟩
        refine ⟨cz, ?_⟩
        simp [layoutFold, layoutStep, hig, hsp, hcz]

theorem annot12Fold_skips (p : Params) (boxes : List Box) :
    ∀ (ls : List Layer) (idx : Nat) (s : AnnState),
      (∀ k l, ls.get? k = some l → isDelim p (idx + k) l = true) →
      annot12Fold p boxes idx s ls = .ok s := by
  intro ls
  induction ls with
  | nil => intro idx s _; rfl
  | cons l ls ih =>
    intro idx s h
    have h0 := h 0 l rfl
    rw [Nat.add_zero] at h0
    have hrest : ∀ k l2, ls.get? k = some l2 → isDelim p ((idx + 1) + k) l2 = true := by
      intro k l2 hk
      have h2 := h (k + 1) l2 (by simpa using hk)
      rwa [show idx + (k + 1) = (idx + 1) + k by omega] at h2
    simp [annot12Fold, annot12Step, h0, ih (idx + 1) s hrest]

/-- A sample color wheel for concrete runs. -/
def exWheel : Nat → String := fun n => "color" ++ toString n

/-- A sample dense-like layer: type 1, shape `(None, 100)`. -/
def exDense : Layer := { typeId := 1, shape := .tup [none, some 100] }

/-- A second sample layer type: type 2, shape `(None, 50)`. -/
def exDense2 : Layer := { typeId := 2, shape := .tup [none, some 50] }

/-- A sample spacer layer (`SpacingDummyLayer`), shape `(None, 1)`. -/
def exSpacer : Layer := { typeId := 0, spacing := 50, shape := .tup [none, some 1] }

/-- **C10**: a model with no visible layer (every layer a spacer or
excluded by type/index), `draw_shapes` in `{0, 1, 2}` and the legend
disabled still yields an image, of width `ceil(padding - 1)` — the
uninitialized `-1` horizontal-offset sentinel is summed into the width —
and of height `padding_vertical`. -/
theorem no_visible_image_size (p : Params) (w : Nat → String) (model : List Layer)
    (hall : ∀ k l, model.get? k = some l → isIgnored p k l = true ∨ isSpacerL l = true)
    (hds : p.draw_shapes = 0 ∨ p.draw_shapes = 1 ∨ p.draw_shapes = 2)
    (hleg : p.legend = false) :
    ∃ r, layeredView p w model = .ok r ∧ r.width = p.padding - 1 ∧
      r.height = p.padding_vertical ∧ r.boxes = [] ∧ r.labels = [] ∧
      r.legend = [] := by
  obtain ⟨cz, hfold⟩ := layoutFold_skips p w model 0 (initLayoutState p)
    (by intro k l hk; rw [Nat.zero_add]; exact hall k l hk)
  simp only [initLayoutState] at hfold
  have hwidth : ((-1 : ℚ) + (p.padding : ℚ)).ceil = p.padding - 1 := by
    have e : ((-1 : ℚ)) + (p.padding : ℚ) = ((p.padding - 1 : ℤ) : ℚ) := by
      push_cast; ring
    rw [e, ratCeil_intCast]
  have hheight : ((p.padding_vertical : ℚ)).ceil = p.padding_vertical :=
    ratCeil_intCast p.padding_vertical
  have hdelim : ∀ k l, model.get? k = some l → isDelim p k l = true := by
    intro k l hk
    exact delim_of_skip (hall k l hk)
  have h12 := fun bs => annot12Fold_skips p bs model 0 {}
    (by intro k l hk; rw [Nat.zero_add]; exact hdelim k l hk)
  have hresult : layeredView p w model = .ok
      { width := p.padding - 1, height := p.padding_vertical, boxes := [],
        labels := [], legend := [] } := by
    rcases hds with h | h | h <;>
      simp [layeredView, annotDispatch, h, initLayoutState, hfold, centerBoxes,
            hleg, hwidth, hheight, h12]
  exact ⟨_, hresult, rfl, rfl, rfl, rfl, rfl⟩

/-- Witness for `no_visible_image_size`: a single spacer layer under the
default configuration gives a 9-by-10 canvas with no boxes. -/
theorem no_visible_image_size_witness :
    ∃ r, layeredView {} exWheel [exSpacer] = .ok r ∧
      r.width = ({} : Params).padding - 1 ∧
      r.height = ({} : Params).padding_vertical ∧ r.boxes = [] ∧
      r.labels = [] ∧ r.legend = [] :=
  no_visible_image_size {} exWheel [exSpacer]
    (by
      intro k l hk
      match k, hk with
      | 0, hk =>
        cases hk
        exact Or.inr rfl
      | n + 1, hk => simp at hk)
    (Or.inl rfl) rfl

theorem dimAt_error {dims : List (Option Nat)} {i : Nat} {e : Err}
    (h : dimAt dims i = .error e) : e = .noneDim ∨ e = .indexError := by
  unfold dimAt at h
  split at h <;> simp_all

theorem resolveShape_error {p : Params} {dims : List (Option Nat)} {e : Err}
    (h : resolveShapeXYZ p dims = .error e) :
    e = .badOrientation ∨ e = .badShape ∨ e = .noneDim ∨ e = .indexError ∨
      e = .typeError := by
  rcases hd1 : dimAt dims 1 with e1 | v1 <;>
    rcases hd2 : dimAt dims 2 with e2 | v2 <;>
      simp only [resolveShapeXYZ, hd1, hd2] at h <;>
        (repeat' split at h) <;> simp_all <;>
          first
            | (rcases dimAt_error hd1 with h3 | h3 <;> simp_all)
            | (rcases dimAt_error hd2 with h3 | h3 <;> simp_all)

theorem getShapeDims_error {s : TensorShape} {e : Err}
    (h : getShapeDims s = .error e) : e = .badShape := by
  unfold getShapeDims at h
  split at h <;> simp_all

theorem layoutStep_error {p : Params} {w : Nat → String} {idx : Nat}
    {s : LayoutState} {l : Layer} {e : Err}
    (h : layoutStep p w idx s l = .error e) :
    e = .badOrientation ∨ e = .badShape ∨ e = .noneDim ∨ e = .indexError ∨
      e = .typeError := by
  unfold layoutStep at h
  repeat' split at h
  all_goals simp_all
  all_goals rename_i heq
  all_goals first
    | (have hx := getShapeDims_error heq; simp_all)
    | (have hx := resolveShape_error heq; simp_all)

theorem layoutFold_error {p : Params} {w : Nat → String} :
    ∀ {ls : List Layer} {idx : Nat} {s : LayoutState} {e : Err},
      layoutFold p w idx s ls = .error e →
      e = .badOrientation ∨ e = .badShape ∨ e = .noneDim ∨ e = .indexError ∨
        e = .typeError := by
  intro ls
  induction ls with
  | nil => intro idx s e h; cases h
  | cons l ls ih =>
    intro idx s e h
    unfold layoutFold at h
    split at h
    · rename_i heq
      cases h
      exact layoutStep_error heq
    · exact ih h

theorem boxAt_error {boxes : List Box} {i : Int} {e : Err}
    (h : boxAt boxes i = .error e) : e = .indexError := by
  unfold boxAt at h
  repeat' split at h
  all_goals simp_all

theorem labelDims_error {s : TensorShape} {e : Err}
    (h : labelDims s = .error e) : e = .indexError ∨ e = .badShape := by
  unfold labelDims at h
  repeat' split at h
  all_goals simp_all

theorem annot3Delim_error {p : Params} {boxes : List Box} {idx : Nat}
    {l : Layer} {s : AnnState} {e : Err}
    (h : annot3Delim p boxes idx l s = .error e) :
    e = .structural ∨ e = .indexError := by
  unfold annot3Delim at h
  repeat' first
    | split at h
    | simp only [] at h
  all_goals (cases h <;> first
    | exact Or.inl rfl
    | exact Or.inr (boxAt_error (by assumption)))

theorem annot3End_error {p : Params} {boxes : List Box} {lastIdx idx : Nat}
    {s1 : AnnState} {pend1 : Option (Int × ℚ × ℚ)} {e : Err}
    (h : annot3End p boxes lastIdx idx s1 pend1 = .error e) :
    e = .structural ∨ e = .indexError := by
  unfold annot3End at h
  repeat' first
    | split at h
    | simp only [] at h
  all_goals (cases h <;> first
    | exact Or.inl rfl
    | exact Or.inr (boxAt_error (by assumption)))

theorem annot3Emit_error {idx : Nat} {l : Layer} {s2 : AnnState}
    {pend : Option (Int × ℚ × ℚ)} {e : Err}
    (h : annot3Emit idx l s2 pend = .error e) :
    e = .indexError ∨ e = .badShape := by
  unfold annot3Emit at h
  repeat' split at h
  all_goals (cases h <;> exact labelDims_error (by assumption))

theorem annot3Step_error {p : Params} {boxes : List Box} {lastIdx idx : Nat}
    {l : Layer} {s : AnnState} {e : Err}
    (h : annot3Step p boxes lastIdx idx l s = .error e) :
    e = .structural ∨ e = .indexError ∨ e = .badShape := by
  unfold annot3Step at h
  split at h
  · rename_i heq
    cases h
    rcases annot3Delim_error heq with h1 | h1 <;> simp [h1]
  · split at h
    · rename_i heq
      cases h
      rcases annot3End_error heq with h1 | h1 <;> simp [h1]
    · rcases annot3Emit_error h with h1 | h1 <;> simp [h1]

theorem annot3Fold_error {p : Params} {boxes : List Box} {lastIdx : Nat} :
    ∀ {ls : List Layer} {idx : Nat} {s : AnnState} {e : Err},
      annot3Fold p boxes lastIdx idx s ls = .error e →
      e = .structural ∨ e = .indexError ∨ e = .badShape := by
  intro ls
  induction ls with
  | nil => intro idx s e h; cases h
  | cons l ls ih =>
    intro idx s e h
    unfold annot3Fold at h
    split at h
    · rename_i heq
      cases h
      exact annot3Step_error heq
    · exact ih h

theorem annot12Step_error {p : Params} {boxes : List Box} {idx : Nat}
    {l : Layer} {s : AnnState} {e : Err}
    (h : annot12Step p boxes idx l s = .error e) :
    e = .indexError ∨ e = .badShape := by
  unfold annot12Step at h
  repeat' first
    | split at h
    | simp only [] at h
  all_goals (cases h <;> first
    | exact Or.inl (boxAt_error (by assumption))
    | exact labelDims_error (by assumption))

theorem annot12Fold_error {p : Params} {boxes : List Box} :
    ∀ {ls : List Layer} {idx : Nat} {s : AnnState} {e : Err},
      annot12Fold p boxes idx s ls = .error e →
      e = .indexError ∨ e = .badShape := by
  intro ls
  induction ls with
  | nil => intro idx s e h; cases h
  | cons l ls ih =>
    intro idx s e h
    unfold annot12Fold at h
    split at h
    · rename_i heq
      cases h
      exact annot12Step_error heq
    · exact ih h

theorem annotDispatch_error {p : Params} {boxes : List Box} {model : List Layer}
    {e : Err} (h : annotDispatch p boxes model = .error e) :
    e = .structural ∨ e = .indexError ∨ e = .badShape := by
  unfold annotDispatch at h
  repeat' split at h
  all_goals (cases h <;> first
    | exact annot3Fold_error (by assumption)
    | (rcases annot12Fold_error (by assumption) with h1 | h1 <;> simp [h1]))

/-- **C7**: a `draw_shapes` value outside `0..3` makes `layered_view` fail
with the `draw_shapes` configuration error before any layout or drawing
work (for every model, the result is that error); for values in `0..3`
this check passes — no stage of the run can produce that error. -/
theorem draw_shapes_validation (p : Params) (w : Nat → String) (model : List Layer) :
    ((p.draw_shapes < 0 ∨ 3 < p.draw_shapes) →
      layeredView p w model = .error .badDrawShapes) ∧
    (0 ≤ p.draw_shapes → p.draw_shapes ≤ 3 →
      layeredView p w model ≠ .error .badDrawShapes) := by
  constructor
  · intro h
    unfold layeredView
    rw [if_pos (by rcases h with h | h <;> simp [h])]
  · intro h0 h3 hc
    unfold layeredView at hc
    have hcond : ¬((decide (p.draw_shapes < 0) || decide (3 < p.draw_shapes)) = true) := by
      simp only [Bool.or_eq_true, decide_eq_true_eq, not_or, not_lt]
      exact ⟨h0, h3⟩
    rw [if_neg hcond] at hc
    repeat' split at hc
    all_goals (cases hc <;> first
      | (rcases layoutFold_error (by assumption) with h | h | h | h | h <;> simp at h)
      | (rcases annotDispatch_error (by assumption) with h | h | h <;> simp at h))

/-- Witness for `draw_shapes_validation`: `draw_shapes = 4` on a one-layer
model fails with the configuration error; `draw_shapes = 0` does not. -/
theorem draw_shapes_validation_witness :
    layeredView { draw_shapes := 4 } exWheel [exDense] = .error .badDrawShapes ∧
    layeredView {} exWheel [exDense] ≠ .error .badDrawShapes :=
  ⟨(draw_shapes_validation { draw_shapes := 4 } exWheel [exDense]).1
      (Or.inr (by norm_num)),
   (draw_shapes_validation {} exWheel [exDense]).2 (by norm_num) (by norm_num)⟩

theorem layoutStep_shape {p : Params} {w : Nat → String} {idx : Nat}
    {s : LayoutState} {l : Layer} {s' : LayoutState}
    (h : layoutStep p w idx s l = .ok s')
    (hlen : s.boxes.length = s.layer_y.length)
    (hinv : ∀ bl ∈ s.boxes.zip s.layer_y, bl.1.y1 = bl.1.de ∧ bl.2 = bl.1.y2) :
    s'.boxes.length = s'.layer_y.length ∧
    ∀ bl ∈ s'.boxes.zip s'.layer_y, bl.1.y1 = bl.1.de ∧ bl.2 = bl.1.y2 := by
  unfold layoutStep at h
  repeat' split at h
  all_goals cases h
  all_goals first
    | exact ⟨hlen, hinv⟩
    | (refine ⟨by simp [hlen], ?_⟩
       intro bl hbl
       rw [List.zip_append hlen] at hbl
       rcases List.mem_append.1 hbl with hbl | hbl
       · exact hinv bl hbl
       · simp at hbl
         subst hbl
         exact ⟨rfl, by simp⟩)

theorem layoutFold_shape {p : Params} {w : Nat → String} :
    ∀ {ls : List Layer} {idx : Nat} {s s' : LayoutState},
      layoutFold p w idx s ls = .ok s' →
      s.boxes.length = s.layer_y.length →
      (∀ bl ∈ s.boxes.zip s.layer_y, bl.1.y1 = bl.1.de ∧ bl.2 = bl.1.y2) →
      s'.boxes.length = s'.layer_y.length ∧
      ∀ bl ∈ s'.boxes.zip s'.layer_y, bl.1.y1 = bl.1.de ∧ bl.2 = bl.1.y2 := by
  intro ls
  induction ls with
  | nil =>
    intro idx s s' h hlen hinv
    cases h
    exact ⟨hlen, hinv⟩
  | cons l ls ih =>
    intro idx s s' h hlen hinv
    unfold layoutFold at h
    split at h
    · cases h
    · rename_i s1 heq
      obtain ⟨hlen1, hinv1⟩ := layoutStep_shape heq hlen hinv
      exact ih h hlen1 hinv1

/-- **C2** (amended): after layout and the centering pass every produced
box individually satisfies `y1 - de = img_height - y2` exactly — the box's
drawn extent spans `[y1 - de, y2]` (the extrusion projects upward), so the
top and bottom margins agree box-by-box, and in particular
`min (y1 - de) = min (img_height - y2) = img_height - max y2`. -/
theorem vertical_balance (p : Params) (w : Nat → String) (model : List Layer)
    (r : Render) (hok : layeredView p w model = .ok r) :
    ∀ b ∈ r.boxes, b.y1 - b.de = (r.height : ℚ) - b.y2 := by
  unfold layeredView at hok
  split at hok
  · cases hok
  split at hok
  · cases hok
  rename_i s heq
  split at hok
  · cases hok
  rename_i labels heq2
  cases hok
  obtain ⟨hlen, hinv⟩ := layoutFold_shape heq rfl (by intro bl hbl; cases hbl)
  intro b hb
  simp only [centerBoxes, List.mem_map] at hb
  obtain ⟨bl, hbl, rfl⟩ := hb
  obtain ⟨h1, h2⟩ := hinv bl hbl
  simp only []
  rw [h2, h1]
  ring

/-- The box of a one-dense-layer model under the default configuration
(`(None,100)` resolves to a 20-cube with `de = 20/3`). -/
def exBox1 : Box :=
  { x1 := 10, y1 := 71/6, x2 := 30, y2 := 191/6, de := 20/3,
    fill := "color1", outline := "black", shade := 10 }

/-- The concrete render of a one-dense-layer model under the default
configuration (canvas 47 by 37). -/
def exRender1 : Render :=
  { width := 47, height := 37, boxes := [exBox1], labels := [], legend := [] }

/-- **C2** (counterexample to the claim as stated): for the default
one-layer model the only box has `y1 - de = 31/6` while
`img_height - (y2 + de) = -3/2`, so `min (y1 - de)` and
`max (img_height - (y2 + de))` differ by `20/3` — far beyond any rounding
tolerance.  The claimed formula subtracts `de` on the wrong side: the
extrusion projects upward, so the drawn extent ends at `y2`, not
`y2 + de`. -/
theorem vertical_balance_cex :
    (layeredView {} exWheel [exDense]).map
        (fun r => r.boxes.map (fun b => (b.y1 - b.de, (r.height : ℚ) - (b.y2 + b.de)))) =
      .ok [(31/6, -3/2)] ∧ ((31/6 : ℚ) - (-3/2)) > 1 :=
  ⟨by with_unfolding_all rfl, by norm_num⟩

/-- Witness for `vertical_balance` at the one-layer default model. -/
theorem vertical_balance_witness :
    exBox1.y1 - exBox1.de = (exRender1.height : ℚ) - exBox1.y2 :=
  vertical_balance {} exWheel [exDense] exRender1 (by with_unfolding_all rfl)
    exBox1 (List.mem_cons_self _ _)

theorem pymin_nonneg {a b : ℚ} (ha : 0 ≤ a) (hb : 0 ≤ b) : 0 ≤ pymin a b := by
  unfold pymin
  split <;> assumption

theorem pymax_ge_right (a b : ℚ) : b ≤ pymax a b := by
  unfold pymax
  split
  · exact le_refl b
  · exact le_of_not_lt (by assumption)

theorem clampDim_nonneg {v lo hi : ℚ} (hlo : 0 ≤ lo) (hhi : 0 ≤ hi) :
    0 ≤ clampDim v lo hi :=
  pymin_nonneg (le_trans hlo (pymax_ge_right v lo)) hhi

theorem resolveShape_z_nonneg {p : Params} {dims : List (Option Nat)}
    {x y z : ℚ} (hmz : 0 ≤ p.min_z) (hMz : 0 ≤ p.max_z)
    (h : resolveShapeXYZ p dims = .ok (x, y, z)) : 0 ≤ z := by
  unfold resolveShapeXYZ at h
  split at h
  · split at h
    · cases h
      exact clampDim_nonneg hmz hMz
    · cases h
    · cases h
  · split at h
    · split at h
      · cases h
      · cases h
      · cases h
    · split at h
      · split at h
        · split at h
          · cases h
            exact hmz
          · cases h
        · split at h
          · split at h
            · cases h
              exact hmz
            · cases h
          · split at h
            · split at h
              · cases h
                exact clampDim_nonneg hmz hMz
              · cases h
            · cases h
      · cases h

theorem layoutStep_ignored {p : Params} {w : Nat → String} {idx : Nat}
    {s : LayoutState} {l : Layer} (h : isIgnored p idx l = true) :
    layoutStep p w idx s l = .ok s := by
  simp [layoutStep, h]

theorem layoutStep_spacer {p : Params} {w : Nat → String} {idx : Nat}
    {s : LayoutState} {l : Layer} (h1 : isIgnored p idx l = false)
    (h2 : isSpacerL l = true) :
    layoutStep p w idx s l = .ok { s with current_z := s.current_z + l.spacing } := by
  simp [layoutStep, h1, h2]

theorem layoutStep_visible {p : Params} {w : Nat → String} {idx : Nat}
    {s : LayoutState} {l : Layer} {s' : LayoutState}
    (hmz : 0 ≤ p.min_z) (hMz : 0 ≤ p.max_z) (hsp : 0 ≤ p.spacing)
    (h1 : isIgnored p idx l = false) (h2 : isSpacerL l = false)
    (h : layoutStep p w idx s l = .ok s') :
    (∃ b, s'.boxes = s.boxes ++ [b]) ∧ s.current_z ≤ s'.current_z := by
  unfold layoutStep at h
  rw [h1] at h
  rw [h2] at h
  simp only [Bool.false_eq_true, if_false] at h
  split at h
  · cases h
  split at h
  · cases h
  rename_i dims hdims xyz x y z hxyz
  cases h
  refine ⟨⟨_, rfl⟩, ?_⟩
  have hz := resolveShape_z_nonneg hmz hMz hxyz
  have hspq : (0 : ℚ) ≤ (p.spacing : ℚ) := by exact_mod_cast hsp
  exact (by linarith : s.current_z ≤ s.current_z + z + (p.spacing : ℚ))

theorem countVisible_cons (p : Params) (idx : Nat) (l : Layer) (ls : List Layer) :
    countVisible p idx (l :: ls) =
      (if isDelim p idx l then 0 else 1) + countVisible p (idx + 1) ls := rfl

theorem delim_eq_false {p : Params} {idx : Nat} {l : Layer}
    (h1 : isIgnored p idx l = false) (h2 : isSpacerL l = false) :
    isDelim p idx l = false := by
  unfold isIgnored at h1
  unfold isDelim
  rw [h2]
  rcases Bool.or_eq_false_iff.1 h1 with ⟨ht, hi⟩
  rw [ht, hi]
  rfl

theorem layoutFold_chain {p : Params} {w : Nat → String}
    (hmz : 0 ≤ p.min_z) (hMz : 0 ≤ p.max_z) (hsp : 0 ≤ p.spacing) :
    ∀ {ls : List Layer} {idx : Nat} {s s' : LayoutState},
      (∀ l ∈ ls, (0 : ℚ) ≤ l.spacing) →
      layoutFold p w idx s ls = .ok s' →
      s'.boxes.length = s.boxes.length + countVisible p idx ls ∧
      (∃ tail, s'.boxes = s.boxes ++ tail) ∧
      s.current_z ≤ s'.current_z := by
  intro ls
  induction ls with
  | nil =>
    intro idx s s' _ h
    cases h
    exact ⟨rfl, ⟨[], by simp⟩, le_refl _⟩
  | cons l ls ih =>
    intro idx s s' hpos h
    unfold layoutFold at h
    split at h
    · cases h
    rename_i s1 heq
    have hpos1 : ∀ l2 ∈ ls, (0 : ℚ) ≤ l2.spacing := fun l2 hl2 => hpos l2 (List.mem_cons_of_mem l hl2)
    by_cases hig : isIgnored p idx l
    · rw [layoutStep_ignored hig] at heq
      cases heq
      obtain ⟨hc, hpre, hcz⟩ := ih hpos1 h
      refine ⟨?_, hpre, hcz⟩
      rw [hc]
      have : countVisible p idx (l :: ls) = countVisible p (idx + 1) ls := by
        rw [countVisible_cons, delim_of_skip (Or.inl hig)]
        simp
      rw [this]
    · by_cases hspc : isSpacerL l
      · rw [layoutStep_spacer (Bool.not_eq_true _ ▸ hig) hspc] at heq
        cases heq
        obtain ⟨hc, hpre, hcz⟩ := ih hpos1 h
        refine ⟨?_, hpre, ?_⟩
        · rw [hc]
          have : countVisible p idx (l :: ls) = countVisible p (idx + 1) ls := by
            rw [countVisible_cons, delim_of_skip (Or.inr hspc)]
            simp
          rw [this]
        · have h0 : (0 : ℚ) ≤ l.spacing := hpos l (List.mem_cons_self l ls)
          calc s.current_z ≤ s.current_z + l.spacing := by linarith
            _ ≤ s'.current_z := hcz
      · have hig' : isIgnored p idx l = false := Bool.not_eq_true _ ▸ hig
        have hspc' : isSpacerL l = false := Bool.not_eq_true _ ▸ hspc
        obtain ⟨⟨b, hb⟩, hcz1⟩ := layoutStep_visible hmz hMz hsp hig' hspc' heq
        obtain ⟨hc, ⟨tail, htail⟩, hcz⟩ := ih hpos1 h
        refine ⟨?_, ⟨[b] ++ tail, by rw [htail, hb, List.append_assoc]⟩, le_trans hcz1 hcz⟩
        rw [hc, hb, countVisible_cons, delim_eq_false hig' hspc']
        simp
        all_goals omega

/-- **C6**: a chain of `N` visible layers produces exactly `N` boxes,
appended in traversal order, with a monotonically non-decreasing horizontal
cursor; a non-excluded spacer layer strictly increases the cursor (for a
positive configured spacing) while emitting zero boxes; a visible layer
appends exactly one box and never decreases the cursor.  (Configured
minimums/spacing are assumed nonnegative, as in the defaults.) -/
theorem layout_chain_properties (p : Params) (w : Nat → String)
    (hmz : 0 ≤ p.min_z) (hMz : 0 ≤ p.max_z) (hsp : 0 ≤ p.spacing) :
    (∀ (model : List Layer) (idx : Nat) (s s' : LayoutState),
      (∀ l ∈ model, (0 : ℚ) ≤ l.spacing) →
      layoutFold p w idx s model = .ok s' →
      s'.boxes.length = s.boxes.length + countVisible p idx model ∧
      (∃ tail, s'.boxes = s.boxes ++ tail) ∧
      s.current_z ≤ s'.current_z) ∧
    (∀ (idx : Nat) (s : LayoutState) (l : Layer),
      isIgnored p idx l = false → isSpacerL l = true →
      layoutStep p w idx s l = .ok { s with current_z := s.current_z + l.spacing } ∧
      (0 < l.spacing → s.current_z < s.current_z + l.spacing)) ∧
    (∀ (idx : Nat) (s : LayoutState) (l : Layer) (s' : LayoutState),
      isIgnored p idx l = false → isSpacerL l = false →
      layoutStep p w idx s l = .ok s' →
      (∃ b, s'.boxes = s.boxes ++ [b]) ∧ s.current_z ≤ s'.current_z) := by
  refine ⟨?_, ?_, ?_⟩
  · intro model idx s s' hpos h
    exact layoutFold_chain hmz hMz hsp hpos h
  · intro idx s l h1 h2
    exact ⟨layoutStep_spacer h1 h2, fun h0 => by linarith⟩
  · intro idx s l s' h1 h2 h
    exact layoutStep_visible hmz hMz hsp h1 h2 h

/-- The layout state after the sample chain dense-spacer-dense under the
default configuration. -/
def exLayoutS : LayoutState :=
  { boxes := [{ x1 := 20/3, y1 := 20/3, x2 := 80/3, y2 := 80/3, de := 20/3,
                fill := "color1", outline := "black", shade := 10 },
              { x1 := 260/3, y1 := 20/3, x2 := 320/3, y2 := 80/3, de := 20/3,
                fill := "color2", outline := "black", shade := 10 }],
    layer_y := [80/3, 80/3],
    colorMap := [(2, { fill := some "color2", outline := some "black" }),
                 (1, { fill := some "color1", outline := some "black" })],
    current_z := 120, x_off := 10/3, layer_types := [1, 2],
    img_height := 80/3, max_right := 340/3 }

/-- Witness for `layout_chain_properties`: the dense-spacer-dense chain has
2 visible layers and yields exactly 2 boxes with the cursor advanced. -/
theorem layout_chain_properties_witness :
    layoutFold {} exWheel 0 (initLayoutState {}) [exDense, exSpacer, exDense2] =
      .ok exLayoutS ∧
    exLayoutS.boxes.length =
      (initLayoutState {}).boxes.length +
        countVisible {} 0 [exDense, exSpacer, exDense2] ∧
    (initLayoutState {}).current_z ≤ exLayoutS.current_z := by
  have hf : layoutFold {} exWheel 0 (initLayoutState {}) [exDense, exSpacer, exDense2] =
      .ok exLayoutS := by
    with_unfolding_all rfl
  have h := (layout_chain_properties {} exWheel (by norm_num) (by norm_num)
      (by norm_num)).1 [exDense, exSpacer, exDense2] 0 (initLayoutState {}) exLayoutS
    (by intro l hl; fin_cases hl <;> norm_num [exDense, exSpacer, exDense2]) hf
  exact ⟨hf, h.1, h.2.2⟩

/-- The coloring invariant the layout loop maintains: `ts` lists the type
tags of the boxes produced so far, positionally; every produced box's fill
and outline are recorded in the color map under its type; every recorded
layer type has produced some box. -/
def colorInv (s : LayoutState) (ts : List Nat) : Prop :=
  s.boxes.length = ts.length ∧
  (∀ k t b, ts.get? k = some t → s.boxes.get? k = some b →
     s.colorMap.lookup t = some ⟨some b.fill, some b.outline⟩) ∧
  (∀ t ∈ s.layer_types, t ∈ ts)

theorem layoutStep_colors {p : Params} {w : Nat → String} {idx : Nat}
    {s : LayoutState} {l : Layer} {s' : LayoutState} {ts : List Nat}
    (h : layoutStep p w idx s l = .ok s') (hinv : colorInv s ts) :
    colorInv s' (ts ++ if isDelim p idx l then [] else [l.typeId]) := by
  obtain ⟨h1, h2, h3⟩ := hinv
  by_cases hig : isIgnored p idx l
  · rw [layoutStep_ignored hig] at h
    cases h
    rw [delim_of_skip (Or.inl hig)]
    exact ⟨by simpa using h1, by simpa using h2, by simpa using h3⟩
  · have hig' : isIgnored p idx l = false := Bool.not_eq_true _ ▸ hig
    by_cases hspc : isSpacerL l
    · rw [layoutStep_spacer hig' hspc] at h
      cases h
      rw [delim_of_skip (Or.inr hspc)]
      exact ⟨by simpa using h1, by simpa using h2, by simpa using h3⟩
    · have hspc' : isSpacerL l = false := Bool.not_eq_true _ ▸ hspc
      rw [delim_eq_false hig' hspc']
      unfold layoutStep at h
      rw [hig'] at h
      rw [hspc'] at h
      simp only [Bool.false_eq_true, if_false] at h
      split at h
      · cases h
      split at h
      · cases h
      rename_i dims hdims xyz x y z hxyz
      cases h
      simp only [Bool.false_eq_true, if_false]
      refine ⟨by simp [h1], ?_, ?_⟩
      · intro k t b hts hbox
        dsimp only at hbox ⊢
        rcases Nat.lt_trichotomy k ts.length with hk | hk | hk
        · rw [List.get?_append hk] at hts
          rw [List.get?_append (h1 ▸ hk)] at hbox
          have hold := h2 k t b hts hbox
          by_cases ht : t = l.typeId
          · subst ht
            have hfill : cmGetFill s.colorMap l.typeId = some b.fill := by
              unfold cmGetFill
              rw [hold]
            have houtl : cmGetOutline s.colorMap l.typeId = some b.outline := by
              unfold cmGetOutline
              rw [hold]
            simp [List.lookup, hfill, houtl]
          · have hbeq : (t == l.typeId) = false := beq_eq_false_iff_ne.2 ht
            simp [List.lookup, hbeq, hold]
        · subst hk
          rw [List.get?_concat_length] at hts
          cases hts
          rw [← h1, List.get?_concat_length] at hbox
          cases hbox
          simp [List.lookup]
        · rw [List.get?_eq_none.2 (by simp; omega)] at hts
          cases hts
      · intro t ht
        dsimp only at ht
        split at ht
        · exact List.mem_append_left _ (h3 t ht)
        · rcases List.mem_append.1 ht with ht | ht
          · exact List.mem_append_left _ (h3 t ht)
          · simp at ht
            subst ht
            simp

theorem visibleTypes_cons (p : Params) (idx : Nat) (l : Layer) (ls : List Layer) :
    visibleTypes p idx (l :: ls) =
      if isDelim p idx l then visibleTypes p (idx + 1) ls
      else l.typeId :: visibleTypes p (idx + 1) ls := rfl

theorem layoutFold_colors {p : Params} {w : Nat → String} :
    ∀ {ls : List Layer} {idx : Nat} {s s' : LayoutState} {ts : List Nat},
      layoutFold p w idx s ls = .ok s' → colorInv s ts →
      colorInv s' (ts ++ visibleTypes p idx ls) := by
  intro ls
  induction ls with
  | nil =>
    intro idx s s' ts h hinv
    cases h
    simpa [visibleTypes] using hinv
  | cons l ls ih =>
    intro idx s s' ts h hinv
    unfold layoutFold at h
    split at h
    · cases h
    rename_i s1 heq
    have hstep := layoutStep_colors heq hinv
    have hrec := ih h hstep
    rw [visibleTypes_cons]
    by_cases hd : isDelim p idx l
    · rw [if_pos hd]
      rw [hd] at hrec
      simpa using hrec
    · rw [if_neg hd]
      have hd2 : isDelim p idx l = false := Bool.not_eq_true _ ▸ hd
      rw [hd2] at hrec
      simp only [Bool.false_eq_true, if_false, List.append_assoc] at hrec
      simpa using hrec

theorem centerBoxes_colors {imgHeight : Int} {x_off : ℚ} {bs : List Box}
    {ly : List ℚ} {k : Nat} {b' : Box}
    (h : (centerBoxes imgHeight x_off (bs.zip ly)).get? k = some b') :
    ∃ b, bs.get? k = some b ∧ b'.fill = b.fill ∧ b'.outline = b.outline := by
  unfold centerBoxes at h
  rw [List.get?_map] at h
  rcases hz : (bs.zip ly).get? k with _ | z
  · rw [hz] at h
    cases h
  · rw [hz] at h
    cases h
    obtain ⟨hb, _⟩ := (List.get?_zip_eq_some _ _ _ _).1 hz
    exact ⟨z.1, hb, rfl, rfl⟩

/-- **C8**: two visible layers of the same type anywhere in the model get
boxes with identical fill and outline colors (resolved on first encounter,
recorded in the color map, reused), and every legend swatch of that type
carries exactly the same fill and outline. -/
theorem color_consistency (p : Params) (w : Nat → String) (model : List Layer)
    (r : Render) (hok : layeredView p w model = .ok r) :
    ∀ k1 k2 t b1 b2,
      (visibleTypes p 0 model).get? k1 = some t →
      (visibleTypes p 0 model).get? k2 = some t →
      r.boxes.get? k1 = some b1 → r.boxes.get? k2 = some b2 →
      (b1.fill = b2.fill ∧ b1.outline = b2.outline) ∧
      (∀ e ∈ r.legend, e.1 = t → e.2.1 = b1.fill ∧ e.2.2 = b1.outline) := by
  unfold layeredView at hok
  split at hok
  · cases hok
  split at hok
  · cases hok
  rename_i s heq
  split at hok
  · cases hok
  rename_i labels heq2
  cases hok
  have hinv0 : colorInv (initLayoutState p) [] := by
    refine ⟨rfl, ?_, ?_⟩
    · intro k t b h1 _
      cases h1
    · intro t ht
      cases ht
  have hinv : colorInv s ([] ++ visibleTypes p 0 model) :=
    layoutFold_colors heq hinv0
  rw [List.nil_append] at hinv
  obtain ⟨hlen, hmap, htypes⟩ := hinv
  intro k1 k2 t b1 b2 ht1 ht2 hb1 hb2
  obtain ⟨c1, hc1, hf1, ho1⟩ := centerBoxes_colors hb1
  obtain ⟨c2, hc2, hf2, ho2⟩ := centerBoxes_colors hb2
  have hm1 := hmap k1 t c1 ht1 hc1
  have hm2 := hmap k2 t c2 ht2 hc2
  rw [hm1] at hm2
  have hcf : c1.fill = c2.fill := by
    have := congrArg (fun o => o.map CEntry.fill) hm2
    simpa using this
  have hco : c1.outline = c2.outline := by
    have := congrArg (fun o => o.map CEntry.outline) hm2
    simpa using this
  refine ⟨⟨by rw [hf1, hf2, hcf], by rw [ho1, ho2, hco]⟩, ?_⟩
  intro e he het
  dsimp only at he
  split at he
  · unfold legendSwatches at he
    rcases List.mem_map.1 he with ⟨t0, ht0, rfl⟩
    dsimp only at het ⊢
    subst het
    have hfill : cmGetFill s.colorMap t0 = some c1.fill := by
      unfold cmGetFill
      rw [hm1]
    have houtl : cmGetOutline s.colorMap t0 = some c1.outline := by
      unfold cmGetOutline
      rw [hm1]
    constructor
    · simp [hfill, hf1]
    · simp [houtl, ho1]
  · cases he

/-- The concrete render of the chain dense-dense2-dense with the legend
enabled, under the default configuration. -/
def exRender3 : Render :=
  { width := 107, height := 37,
    boxes := [{ x1 := 10, y1 := 71/6, x2 := 30, y2 := 191/6, de := 20/3,
                fill := "color1", outline := "black", shade := 10 },
              { x1 := 40, y1 := 71/6, x2 := 60, y2 := 191/6, de := 20/3,
                fill := "color2", outline := "black", shade := 10 },
              { x1 := 70, y1 := 71/6, x2 := 90, y2 := 191/6, de := 20/3,
                fill := "color1", outline := "black", shade := 10 }],
    labels := [],
    legend := [(1, "color1", "black"), (2, "color2", "black")] }

/-- Witness for `color_consistency`: in the dense-dense2-dense chain the
two type-1 boxes (positions 0 and 2) share fill and outline, and the type-1
legend swatch reuses them. -/
theorem color_consistency_witness :
    (exRender3.boxes.get? 0).map Box.fill = (exRender3.boxes.get? 2).map Box.fill ∧
    (exRender3.boxes.get? 0).map Box.outline = (exRender3.boxes.get? 2).map Box.outline ∧
    ∀ e ∈ exRender3.legend, e.1 = 1 →
      some e.2.1 = (exRender3.boxes.get? 0).map Box.fill ∧
      some e.2.2 = (exRender3.boxes.get? 0).map Box.outline := by
  have h := color_consistency { legend := true } exWheel [exDense, exDense2, exDense]
    exRender3 (by with_unfolding_all rfl) 0 2 1
    (exRender3.boxes.get ⟨0, by norm_num [exRender3]⟩)
    (exRender3.boxes.get ⟨2, by norm_num [exRender3]⟩)
    (by with_unfolding_all rfl) (by with_unfolding_all rfl) (by rfl) (by rfl)
  refine ⟨?_, ?_, ?_⟩
  · simp [exRender3]
  · simp [exRender3]
  · intro e he het
    have h2 := h.2 e he het
    simp [exRender3] at h2 ⊢
    exact h2

theorem annot3Fold_append {p : Params} {boxes : List Box} {lastIdx : Nat} :
    ∀ (xs ys : List Layer) (idx : Nat) (s : AnnState),
      annot3Fold p boxes lastIdx idx s (xs ++ ys) =
        match annot3Fold p boxes lastIdx idx s xs with
        | .error e => .error e
        | .ok s1 => annot3Fold p boxes lastIdx (idx + xs.length) s1 ys := by
  intro xs
  induction xs with
  | nil =>
    intro ys idx s
    simp [annot3Fold]
  | cons x xs ih =>
    intro ys idx s
    have hcons : ∀ (zs : List Layer) (j : Nat) (st : AnnState),
        annot3Fold p boxes lastIdx j st (x :: zs) =
          match annot3Step p boxes lastIdx j x st with
          | .error e => .error e
          | .ok s1 => annot3Fold p boxes lastIdx (j + 1) s1 zs := fun _ _ _ => rfl
    rw [List.cons_append, hcons, hcons]
    cases hstep : annot3Step p boxes lastIdx idx x s with
    | error e => simp
    | ok s1 =>
      simp only [List.length_cons]
      rw [ih ys (idx + 1) s1]
      rw [show idx + (xs.length + 1) = idx + 1 + xs.length from by omega]

theorem annot3Delim_ok_cases {p : Params} {boxes : List Box} {idx : Nat}
    {l : Layer} {s s1 : AnnState} {pend : Option (Int × ℚ × ℚ)}
    (h : annot3Delim p boxes idx l s = .ok (s1, pend)) :
    (isDelim p idx l = false ∧ s1 = { s with i := s.i + 1 } ∧ pend = none) ∨
    (isDelim p idx l = true ∧ s1 = { s with sli := s.i } ∧ 0 < s.i - s.sli ∧
      ∃ a tx ty, pend = some (a, tx, ty)) := by
  unfold annot3Delim at h
  simp only [] at h
  split at h
  · rename_i hd
    split at h
    · cases h
    · rename_i hle
      split at h
      · cases h
      · rename_i box hbox
        cases h
        exact Or.inr ⟨hd, rfl, by omega, _, _, _, rfl⟩
  · rename_i hd
    cases h
    exact Or.inl ⟨Bool.not_eq_true _ ▸ hd, rfl, rfl⟩

theorem annot3End_ok_cases {p : Params} {boxes : List Box} {lastIdx idx : Nat}
    {s1 : AnnState} {pend1 : Option (Int × ℚ × ℚ)} {s2 : AnnState}
    {pend2 : Option (Int × ℚ × ℚ)}
    (h : annot3End p boxes lastIdx idx s1 pend1 = .ok (s2, pend2)) :
    (idx ≠ lastIdx ∧ s2 = s1 ∧ pend2 = pend1) ∨
    (idx = lastIdx ∧ s2 = s1 ∧ 0 < s1.i - s1.sli ∧
      ∃ tx ty, pend2 = some (s1.i, tx, ty)) := by
  unfold annot3End at h
  simp only [] at h
  split at h
  · rename_i hd
    split at h
    · cases h
    · rename_i hle
      split at h
      · cases h
      · rename_i box hbox
        cases h
        exact Or.inr ⟨by simpa using hd, rfl, by omega, _, _, rfl⟩
  · rename_i hd
    cases h
    exact Or.inl ⟨by simpa using hd, rfl, rfl⟩

theorem annot3Emit_ok_cases {idx : Nat} {l : Layer} {s2 : AnnState}
    {pend : Option (Int × ℚ × ℚ)} {s' : AnnState}
    (h : annot3Emit idx l s2 pend = .ok s') :
    (pend = none ∧ s' = s2) ∨
    (∃ a tx ty ds, pend = some (a, tx, ty) ∧ labelDims l.shape = .ok ds ∧
      s' = { s2 with labels := s2.labels ++ [⟨a, idx, formatShapeTxt ds, tx, ty⟩] }) := by
  unfold annot3Emit at h
  split at h
  · cases h
    exact Or.inl ⟨rfl, rfl⟩
  · rename_i a tx ty
    split at h
    · cases h
    · rename_i ds hds
      cases h
      exact Or.inr ⟨a, tx, ty, ds, rfl, hds, rfl⟩

theorem annot3Step_delim_state {p : Params} {boxes : List Box} {lastIdx idx : Nat}
    {l : Layer} {s s' : AnnState}
    (hd : isDelim p idx l = true) (hne : idx ≠ lastIdx)
    (h : annot3Step p boxes lastIdx idx l s = .ok s') :
    s'.sli = s.i ∧ s'.i = s.i := by
  unfold annot3Step at h
  cases hdelim : annot3Delim p boxes idx l s with
  | error e =>
    rw [hdelim] at h
    cases h
  | ok pr =>
    obtain ⟨s1, pend1⟩ := pr
    rw [hdelim] at h
    simp only [] at h
    cases hend : annot3End p boxes lastIdx idx s1 pend1 with
    | error e =>
      rw [hend] at h
      cases h
    | ok pr2 =>
      obtain ⟨s2, pend2⟩ := pr2
      rw [hend] at h
      simp only [] at h
      rcases annot3Delim_ok_cases hdelim with ⟨hd0, _, _⟩ | ⟨_, hs1, _, _⟩
      · rw [hd0] at hd
        cases hd
      · rcases annot3End_ok_cases hend with ⟨_, hs2, _⟩ | ⟨heq, _, _⟩
        · rcases annot3Emit_ok_cases h with ⟨_, hs'⟩ | ⟨a, tx, ty, ds, _, _, hs'⟩ <;>
            (subst hs'; subst hs2; subst hs1; exact ⟨rfl, rfl⟩)
        · exact absurd heq hne

theorem annot3Step_structural {p : Params} {boxes : List Box} {lastIdx idx : Nat}
    {l : Layer} {s : AnnState}
    (hd : isDelim p idx l = true) (hsli : s.i - s.sli ≤ 0) :
    annot3Step p boxes lastIdx idx l s = .error .structural := by
  unfold annot3Step annot3Delim
  rw [if_pos hd, if_pos hsli]

theorem annot3Fold_delims_error {p : Params} {boxes : List Box} {lastIdx : Nat}
    (A C : List Layer) (d1 l2 : Layer) (s0 : AnnState)
    (hd1 : isDelim p A.length d1 = true)
    (hd2 : isDelim p (A.length + 1) l2 = true)
    (hlast : A.length ≠ lastIdx) :
    (∃ e, annot3Fold p boxes lastIdx 0 s0 (A ++ d1 :: l2 :: C) = .error e) ∧
    (∀ s1, annot3Fold p boxes lastIdx 0 s0 (A ++ [d1]) = .ok s1 →
      annot3Fold p boxes lastIdx 0 s0 (A ++ d1 :: l2 :: C) = .error .structural) := by
  have hsplit : A ++ d1 :: l2 :: C = (A ++ [d1]) ++ (l2 :: C) := by
    rw [List.append_cons]
  have hsplit2 : A ++ [d1] = A ++ d1 :: ([] : List Layer) := rfl
  have happ := @annot3Fold_append p boxes lastIdx (A ++ [d1]) (l2 :: C) 0 s0
  rw [← hsplit] at happ
  have hlen : (A ++ [d1]).length = A.length + 1 := by simp
  cases hA : annot3Fold p boxes lastIdx 0 s0 (A ++ [d1]) with
  | error e =>
    rw [hA] at happ
    constructor
    · exact ⟨e, happ⟩
    · intro s1 h1
      cases h1
  | ok s1 =>
    -- the last processed layer of the prefix is the delimiter d1, so
    -- spacing_layer_index has just been set to i
    have happ2 := @annot3Fold_append p boxes lastIdx A [d1] 0 s0
    rw [← hsplit2, hA] at happ2
    have hsli : s1.sli = s1.i := by
      cases hA2 : annot3Fold p boxes lastIdx 0 s0 A with
      | error e =>
        rw [hA2] at happ2
        cases happ2
      | ok sA =>
        rw [hA2] at happ2
        simp only [Nat.zero_add] at happ2
        unfold annot3Fold at happ2
        split at happ2
        · cases happ2
        · rename_i sB hstep
          cases happ2
          obtain ⟨hs, hi⟩ := annot3Step_delim_state hd1 hlast hstep
          rw [hs, hi]
    rw [hA] at happ
    simp only [] at happ
    have hstep2 : annot3Step p boxes lastIdx (0 + (A ++ [d1]).length) l2 s1 =
        .error .structural := by
      rw [hlen]
      exact annot3Step_structural (by simpa using hd2) (by omega)
    have hrest : annot3Fold p boxes lastIdx (0 + (A ++ [d1]).length) s1 (l2 :: C) =
        .error .structural := by
      unfold annot3Fold
      rw [hstep2]
    rw [hrest] at happ
    exact ⟨⟨.structural, happ⟩, fun _ _ => happ⟩

/-- **C5**: with grouped shape labels, a model containing two delimiter
layers (spacer or ignored) with no visible layer strictly between them —
equivalently, two adjacent delimiters, since any all-delimiter gap contains
an adjacent pair — never yields an image: the run fails, and whenever the
layout pass and the annotation of the prefix up to the first delimiter
succeed, the failure is precisely the structural "two spacing layers in a
row" error. -/
theorem grouped_adjacent_delims_fail (p : Params) (w : Nat → String)
    (A C : List Layer) (d1 l2 : Layer)
    (hds : p.draw_shapes = 3)
    (hd1 : isDelim p A.length d1 = true)
    (hd2 : isDelim p (A.length + 1) l2 = true) :
    (∃ e, layeredView p w (A ++ d1 :: l2 :: C) = .error e) ∧
    (∀ s s1,
      layoutFold p w 0 (initLayoutState p) (A ++ d1 :: l2 :: C) = .ok s →
      annot3Fold p
        (centerBoxes ((s.img_height + (p.padding_vertical : ℚ)).ceil) s.x_off
          (s.boxes.zip s.layer_y))
        ((A ++ d1 :: l2 :: C).length - 1) 0 {} (A ++ [d1]) = .ok s1 →
      layeredView p w (A ++ d1 :: l2 :: C) = .error .structural) := by
  have hlast : A.length ≠ (A ++ d1 :: l2 :: C).length - 1 := by
    simp only [List.length_append, List.length_cons]
    omega
  have hcond : ¬((decide (p.draw_shapes < 0) || decide (3 < p.draw_shapes)) = true) := by
    simp [hds]
  unfold layeredView
  rw [if_neg hcond]
  cases hf : layoutFold p w 0 (initLayoutState p) (A ++ d1 :: l2 :: C) with
  | error e =>
    constructor
    · exact ⟨e, rfl⟩
    · intro s s1 hs
      cases hs
  | ok s =>
    simp only []
    have hda := @annot3Fold_delims_error p
      (centerBoxes ((s.img_height + (p.padding_vertical : ℚ)).ceil) s.x_off
        (s.boxes.zip s.layer_y))
      ((A ++ d1 :: l2 :: C).length - 1)
      A C d1 l2 {} hd1 hd2 hlast
    obtain ⟨⟨e, he⟩, hstruct⟩ := hda
    have hdisp : annotDispatch p
        (centerBoxes ((s.img_height + (p.padding_vertical : ℚ)).ceil) s.x_off
          (s.boxes.zip s.layer_y)) (A ++ d1 :: l2 :: C) = .error e := by
      unfold annotDispatch
      rw [if_pos (by simp [hds])]
      rw [he]
    constructor
    · refine ⟨e, ?_⟩
      rw [hdisp]
    · intro s' s1 hs hpre
      cases hs
      have he2 := hstruct s1 hpre
      have hdisp2 : annotDispatch p
          (centerBoxes ((s.img_height + (p.padding_vertical : ℚ)).ceil) s.x_off
            (s.boxes.zip s.layer_y)) (A ++ d1 :: l2 :: C) = .error .structural := by
        unfold annotDispatch
        rw [if_pos (by simp [hds])]
        rw [he2]
      rw [hdisp2]

/-- Witness for `grouped_adjacent_delims_fail`: dense, spacer, spacer,
dense with grouped labels fails. -/
theorem grouped_adjacent_delims_fail_witness :
    ∃ e, layeredView { draw_shapes := 3 } exWheel
        ([exDense] ++ exSpacer :: exSpacer :: [exDense2]) = .error e :=
  (grouped_adjacent_delims_fail { draw_shapes := 3 } exWheel [exDense] [exDense2]
    exSpacer exSpacer rfl rfl rfl).1

theorem annot3Step_labels {p : Params} {boxes : List Box} {lastIdx idx : Nat}
    {l : Layer} {s s' : AnnState}
    (h : annot3Step p boxes lastIdx idx l s = .ok s') :
    s'.labels = s.labels ∨
    ∃ ds tx ty a, labelDims l.shape = .ok ds ∧
      (isDelim p idx l = true ∨ idx = lastIdx) ∧
      s'.labels = s.labels ++ [⟨a, idx, formatShapeTxt ds, tx, ty⟩] := by
  unfold annot3Step at h
  cases hdelim : annot3Delim p boxes idx l s with
  | error e =>
    rw [hdelim] at h
    cases h
  | ok pr =>
    obtain ⟨s1, pend1⟩ := pr
    rw [hdelim] at h
    simp only [] at h
    cases hend : annot3End p boxes lastIdx idx s1 pend1 with
    | error e =>
      rw [hend] at h
      cases h
    | ok pr2 =>
      obtain ⟨s2, pend2⟩ := pr2
      rw [hend] at h
      simp only [] at h
      have hs1lab : s1.labels = s.labels := by
        rcases annot3Delim_ok_cases hdelim with ⟨_, hs1, _⟩ | ⟨_, hs1, _, _⟩ <;>
          (subst hs1; rfl)
      have hs2lab : s2.labels = s.labels := by
        rcases annot3End_ok_cases hend with ⟨_, hs2, _⟩ | ⟨_, hs2, _, _⟩ <;>
          (subst hs2; exact hs1lab)
      rcases annot3Emit_ok_cases h with ⟨hp, hs'⟩ | ⟨a, tx, ty, ds, hp, hds, hs'⟩
      · subst hs'
        exact Or.inl hs2lab
      · subst hs'
        refine Or.inr ⟨ds, tx, ty, a, hds, ?_, by rw [hs2lab]⟩
        rcases annot3End_ok_cases hend with ⟨hne, _, hpend⟩ | ⟨heq, _, _, _⟩
        · rcases annot3Delim_ok_cases hdelim with ⟨_, _, hpn⟩ | ⟨hd, _, _, _⟩
          · rw [hpend, hpn] at hp
            cases hp
          · exact Or.inl hd
        · exact Or.inr heq

theorem annot3Fold_labels {p : Params} {boxes : List Box} {lastIdx : Nat} :
    ∀ {ls : List Layer} {idx : Nat} {s s' : AnnState},
      annot3Fold p boxes lastIdx idx s ls = .ok s' →
      ∀ lab ∈ s'.labels, lab ∈ s.labels ∨
        ∃ k l, ls.get? k = some l ∧ lab.textLayerIdx = idx + k ∧
          (∃ ds, labelDims l.shape = .ok ds ∧ lab.text = formatShapeTxt ds) ∧
          (isDelim p (idx + k) l = true ∨ idx + k = lastIdx) := by
  intro ls
  induction ls with
  | nil =>
    intro idx s s' h lab hlab
    cases h
    exact Or.inl hlab
  | cons l ls ih =>
    intro idx s s' h lab hlab
    unfold annot3Fold at h
    split at h
    · cases h
    rename_i s1 hstep
    rcases ih h lab hlab with hin | ⟨k, l2, hget, hidx, htext, hdelim⟩
    · rcases annot3Step_labels hstep with heq | ⟨ds, tx, ty, a, hds, hd, heq⟩
      · rw [heq] at hin
        exact Or.inl hin
      · rw [heq] at hin
        rcases List.mem_append.1 hin with hin | hin
        · exact Or.inl hin
        · simp at hin
          subst hin
          exact Or.inr ⟨0, l, rfl, by simp, ⟨ds, hds, rfl⟩, by simpa using hd⟩
    · refine Or.inr ⟨k + 1, l2, by simpa using hget, by omega, htext, ?_⟩
      rw [show idx + (k + 1) = idx + 1 + k from by omega]
      exact hdelim

/-- **C9**: with grouped shape labels, every rendered label takes its text
from the `output_shape` of the layer at its own `textLayerIdx`, and that
layer is either a delimiter (spacer/ignored — the one that terminated the
segment, not the anchor box's layer) or the model's last layer (for the
final segment). -/
theorem grouped_label_text_source (p : Params) (w : Nat → String)
    (model : List Layer) (r : Render)
    (hds : p.draw_shapes = 3)
    (hok : layeredView p w model = .ok r) :
    ∀ lab ∈ r.labels, ∃ l, model.get? lab.textLayerIdx = some l ∧
      (∃ ds, labelDims l.shape = .ok ds ∧ lab.text = formatShapeTxt ds) ∧
      (isDelim p lab.textLayerIdx l = true ∨
        lab.textLayerIdx = model.length - 1) := by
  unfold layeredView at hok
  split at hok
  · cases hok
  split at hok
  · cases hok
  rename_i s heq
  split at hok
  · cases hok
  rename_i labels heq2
  cases hok
  unfold annotDispatch at heq2
  rw [if_pos (by simp [hds])] at heq2
  split at heq2
  · cases heq2
  rename_i a heq3
  cases heq2
  intro lab hlab
  rcases annot3Fold_labels heq3 lab hlab with hin | ⟨k, l, hget, hidx, htext, hdelim⟩
  · cases hin
  · rw [Nat.zero_add] at hidx
    subst hidx
    exact ⟨l, hget, htext, by simpa using hdelim⟩


/-- The six-layer sample model with a spacer in the middle. -/
def exModel6 : List Layer := [exDense, exDense2, exSpacer, exDense, exDense2, exDense]

/-- The concrete render of `exModel6` with grouped shape labels: one label
per segment — the spacer-terminated segment labelled at box 0 with the
spacer's own shape text "1", the final segment labelled at box 4 with the
last layer's shape text "100". -/
def exRender6 : Render :=
  { width := 217, height := 37,
    boxes := [{ x1 := 10, y1 := 71/6, x2 := 30, y2 := 191/6, de := 20/3,
                fill := "color1", outline := "black", shade := 10 },
              { x1 := 40, y1 := 71/6, x2 := 60, y2 := 191/6, de := 20/3,
                fill := "color2", outline := "black", shade := 10 },
              { x1 := 120, y1 := 71/6, x2 := 140, y2 := 191/6, de := 20/3,
                fill := "color1", outline := "black", shade := 10 },
              { x1 := 150, y1 := 71/6, x2 := 170, y2 := 191/6, de := 20/3,
                fill := "color2", outline := "black", shade := 10 },
              { x1 := 180, y1 := 71/6, x2 := 200, y2 := 191/6, de := 20/3,
                fill := "color1", outline := "black", shade := 10 }],
    labels := [⟨0, 2, "1", 30, 311/6⟩, ⟨4, 5, "100", 200, 311/6⟩],
    legend := [] }

/-- The label of the spacer-terminated segment of `exModel6`. -/
def exLabelSeg : LabelInfo := ⟨0, 2, "1", 30, 311/6⟩

/-- Witness for `grouped_label_text_source`: in `exModel6` the first
label's text layer is index 2 — the spacer itself, a delimiter — and its
text is the spacer's formatted shape. -/
theorem grouped_label_text_source_witness :
    ∃ l, exModel6.get? exLabelSeg.textLayerIdx = some l ∧
      (∃ ds, labelDims l.shape = .ok ds ∧ exLabelSeg.text = formatShapeTxt ds) ∧
      (isDelim { draw_shapes := 3 } exLabelSeg.textLayerIdx l = true ∨
        exLabelSeg.textLayerIdx = exModel6.length - 1) :=
  grouped_label_text_source { draw_shapes := 3 } exWheel exModel6 exRender6 rfl
    (by with_unfolding_all rfl) exLabelSeg (List.mem_cons_self _ _)

/-- **C1** (defect exhibit): with grouped labels, exactly one label is
drawn per segment, and a delimiter-terminated segment is anchored at the
claim's floor/ceil midpoint box — but the final segment, terminated by the
end of the layer sequence, is anchored at its *last* box (`boxes[i]`; the
source computes the midpoint index into an unused variable): a 3-visible
chain gets its single label at box 2 where the claim requires the midpoint
box 1, and in `exModel6` the final segment (boxes 2..4) is anchored at
box 4 where the claim requires box 3 (the delimiter-terminated segment,
boxes 0..1, is anchored at box 0, exactly the claimed floor-midpoint). -/
theorem grouped_final_anchor_defect :
    (layeredView { draw_shapes := 3 } exWheel [exDense, exDense2, exDense]).map
        (fun r => r.labels.map (fun lab => lab.anchorIdx)) = .ok [2] ∧
    claimSegmentAnchor 0 3 = 1 ∧
    (layeredView { draw_shapes := 3 } exWheel exModel6).map
        (fun r => r.labels.map (fun lab => lab.anchorIdx)) = .ok [0, 4] ∧
    claimSegmentAnchor 0 2 = 0 ∧
    claimSegmentAnchor 2 3 = 3 :=
  ⟨by with_unfolding_all rfl, rfl, by with_unfolding_all rfl, rfl, rfl⟩
